import Mathlib

/-!
Shallow embedding of the Admin_tg blogging backend (FastAPI + SQLAlchemy +
PostgreSQL) and proofs about its specification claims.

The embedding follows the source layering:
* `base/model.py`   — table rows (`UserRec`, `PostRec`) and the store;
* sessions          — one SQLAlchemy `AsyncSession` per request
  (`base/connect.py`), modelled as the committed store plus pending
  inserts / deletes / updates, with the integrity checks PostgreSQL runs
  at commit (unique `(name, login)` on users, posts' author foreign key);
* `base/user.py`, `base/post.py`     — the `DataBaseUser` / `DataBasePost` methods;
* `server/user.py`, `server/post.py` — the `MiddleLoyeUser` / `MiddleLoyePost` methods;
* `router/user.py`, `router/post.py` — the HTTP route handlers, each run on a
  fresh session whose uncommitted state is discarded when the request ends.

Python `datetime` values are modelled by the `DateTime` structure, Python
strings by Lean `String`, and the Python `str.split` / `str.startswith`
methods by executable character-list functions (the built-in `String`
comparison functions do not reduce in the kernel).
-/

/-- Civil timestamp, modelling Python `datetime.datetime` to the fields the
repository observes (`strftime` with a year-to-minute format, plus ordering). -/
structure DateTime where
  year : Nat
  month : Nat
  day : Nat
  hour : Nat
  minute : Nat
  second : Nat
deriving Repr, DecidableEq

/-- Lexicographic comparison of lists of naturals. -/
def natListLe : List Nat → List Nat → Bool
  | [], _ => true
  | _ :: _, [] => false
  | a :: as, b :: bs =>
    if a < b then true
    else if b < a then false
    else natListLe as bs

theorem natListLe_total (a b : List Nat) : natListLe a b || natListLe b a := by
  induction a generalizing b with
  | nil => simp [natListLe]
  | cons x xs ih =>
    cases b with
    | nil => simp [natListLe]
    | cons y ys =>
      simp only [natListLe]
      by_cases h1 : x < y
      · simp [h1]
      · by_cases h2 : y < x
        · simp [h1, h2]
        · simp only [h1, h2, if_false, if_neg, ite_false]
          simpa using ih ys

theorem natListLe_trans (a b c : List Nat) :
    natListLe a b → natListLe b c → natListLe a c := by
  induction a generalizing b c with
  | nil => simp [natListLe]
  | cons x xs ih =>
    cases b with
    | nil => simp [natListLe]
    | cons y ys =>
      cases c with
      | nil => simp [natListLe]
      | cons z zs =>
        simp only [natListLe]
        by_cases h1 : x < y <;>
        by_cases h2 : y < x <;>
        by_cases h3 : y < z <;>
        by_cases h4 : z < y <;>
        by_cases h5 : x < z <;>
        by_cases h6 : z < x <;>
        simp [h1, h2, h3, h4, h5, h6] <;>
        first
          | omega
          | (intro p q; exact ih ys zs p q)

/-- The fields of a timestamp, most significant first. -/
def DateTime.fields (d : DateTime) : List Nat :=
  [d.year, d.month, d.day, d.hour, d.minute, d.second]

/-- Chronological order on `DateTime`: lexicographic on the fields, which is
how PostgreSQL compares `timestamp` values. -/
def DateTime.le (a b : DateTime) : Bool := natListLe a.fields b.fields

theorem DateTime.le_total (a b : DateTime) : DateTime.le a b || DateTime.le b a :=
  natListLe_total a.fields b.fields

theorem DateTime.le_trans (a b c : DateTime) :
    DateTime.le a b → DateTime.le b c → DateTime.le a c :=
  natListLe_trans a.fields b.fields c.fields

/-- Codepoint-wise comparison of character lists: the model of text ordering
used for `ORDER BY post.title DESC`. -/
def charListLe : List Char → List Char → Bool
  | [], _ => true
  | _ :: _, [] => false
  | a :: as, b :: bs =>
    if a.toNat < b.toNat then true
    else if b.toNat < a.toNat then false
    else charListLe as bs

theorem charListLe_total (a b : List Char) : charListLe a b || charListLe b a := by
  induction a generalizing b with
  | nil => simp [charListLe]
  | cons x xs ih =>
    cases b with
    | nil => simp [charListLe]
    | cons y ys =>
      simp only [charListLe]
      by_cases h1 : x.toNat < y.toNat
      · simp [h1]
      · by_cases h2 : y.toNat < x.toNat
        · simp [h1, h2]
        · simp only [h1, h2, if_false, if_neg, ite_false]
          simpa using ih ys

theorem charListLe_trans (a b c : List Char) :
    charListLe a b → charListLe b c → charListLe a c := by
  induction a generalizing b c with
  | nil => simp [charListLe]
  | cons x xs ih =>
    cases b with
    | nil => simp [charListLe]
    | cons y ys =>
      cases c with
      | nil => simp [charListLe]
      | cons z zs =>
        simp only [charListLe]
        by_cases h1 : x.toNat < y.toNat <;>
        by_cases h2 : y.toNat < x.toNat <;>
        by_cases h3 : y.toNat < z.toNat <;>
        by_cases h4 : z.toNat < y.toNat <;>
        by_cases h5 : x.toNat < z.toNat <;>
        by_cases h6 : z.toNat < x.toNat <;>
        simp [h1, h2, h3, h4, h5, h6] <;>
        first
          | omega
          | (intro p q; exact ih ys zs p q)

/-- Text order on strings (model of the PostgreSQL `ORDER BY` text order). -/
def strLe (a b : String) : Bool := charListLe a.data b.data

theorem strLe_total (a b : String) : strLe a b || strLe b a :=
  charListLe_total a.data b.data

theorem strLe_trans (a b c : String) : strLe a b → strLe b c → strLe a c :=
  charListLe_trans a.data b.data c.data

/-- Model of Python `str.startswith`, by characters (the library
`String.startsWith` does not reduce in the kernel). -/
def listStartsWith : List Char → List Char → Bool
  | _, [] => true
  | [], _ :: _ => false
  | a :: as, b :: bs => a == b && listStartsWith as bs

def pyStartsWith (s pat : String) : Bool := listStartsWith s.data pat.data

/-- Helper for `pySplit`: walks the characters, cutting at the separator. -/
def splitOnCharAux (c : Char) : List Char → List Char → List (List Char)
  | [], acc => [acc.reverse]
  | x :: xs, acc =>
    if x == c then acc.reverse :: splitOnCharAux c xs []
    else splitOnCharAux c xs (x :: acc)

/-- Model of Python `str.split` with a one-character separator. -/
def pySplit (c : Char) (s : String) : List String :=
  (splitOnCharAux c s.data []).map String.mk

/-- Decimal digits of a natural number, fuel-based so it reduces in the kernel. -/
def natToStringAux : Nat → Nat → List Char
  | 0, _ => []
  | fuel + 1, n =>
    if n < 10 then [Nat.digitChar n]
    else natToStringAux fuel (n / 10) ++ [Nat.digitChar (n % 10)]

/-- Model of Python `str(n)` for a non-negative integer. -/
def natToString (n : Nat) : String := String.mk (natToStringAux (n + 1) n)

def pad2 (n : Nat) : String :=
  if n < 10 then "0" ++ natToString n else natToString n

/-- Model of `datetime.strftime(value, "%Y-%m-%d %H:%M")` as used in
`server/post.py`: seconds are dropped by the format. -/
def strftime_ymd_hm (d : DateTime) : String :=
  natToString d.year ++ "-" ++ pad2 d.month ++ "-" ++ pad2 d.day ++ " " ++
    pad2 d.hour ++ ":" ++ pad2 d.minute

/-- Row of the `users` table (`base/model.py`, class `User`): integer primary
key, display name, token, login, plaintext password, and a
`UniqueConstraint('name', 'login')`. -/
structure UserRec where
  id : Nat
  name : String
  token : String
  login : String
  password : String
deriving Repr, DecidableEq

/-- Row of the `post` table (`base/model.py`, class `Post`): integer primary
key, title, author (foreign key to `users.id`), body text, creation
timestamp column. -/
structure PostRec where
  id : Nat
  title : String
  author : Nat
  text : String
  created_at : DateTime
deriving Repr, DecidableEq

/-- The two relational tables of the store (spec section 3). -/
structure Store where
  users : List UserRec
  posts : List PostRec
deriving Repr, DecidableEq

/-- The `created_at` column default. In `base/model.py` it is declared as
`default=datetime.utcnow()`: the call is evaluated ONCE, at module load, so
the column default is the fixed `datetime` value produced at load time. The
concrete value chosen here is irrelevant; what matters is that every insert
uses this same constant. -/
def postCreatedAtDefault : DateTime := ⟨2025, 1, 1, 0, 0, 0⟩

/-- Request body of `POST /users/` (`schema/user.py`, `SchemaUser`). The
`token` field has the pydantic default `"NoToken"`; the embedding passes the
field explicitly. -/
structure SchemaUser where
  name : String
  token : String
  login : String
  password : String
deriving Repr, DecidableEq

/-- Request body of `POST /users/login` (`schema/user.py`, `SchemaVerification`). -/
structure SchemaVerification where
  login : String
  password : String
deriving Repr, DecidableEq

/-- Request body of `POST /posts/` (`schema/post.py`, `SchemaPost`). -/
structure SchemaPost where
  title : String
  text : String
  author : Nat
deriving Repr, DecidableEq

/-- Request body of `PATCH /posts/{post_id}` (`schema/post.py`,
`SchemaPostUpdate`). The pydantic schema declares `title` and `text` as
required strings; `base/post.py` nevertheless guards both with
`is not None` checks, so the embedding keeps them optional. -/
structure SchemaPostUpdate where
  id : Nat
  title : Option String
  text : Option String
deriving Repr, DecidableEq

/-- The `filter_params` dictionary handed to `DataBasePost.get_posts`:
a key being present in the dict is `some`. -/
structure FilterParams where
  desc : Option String
  limit : Option Nat
  author : Option Nat
deriving Repr, DecidableEq

/-- The result dictionaries built by the `base/` and `server/` layers:
`status_code`, `title`, and an optional `description`. -/
structure Resp where
  status_code : Nat
  title : String
  description : Option String
deriving Repr, DecidableEq

/-- One SQLAlchemy `AsyncSession`: the committed store plus the pending
(unflushed or uncommitted) changes accumulated by `add` / `delete` /
attribute assignment. -/
structure Session where
  store : Store
  pendingAddUsers : List UserRec
  pendingAddPosts : List PostRec
  pendingDelUsers : List Nat
  pendingDelPosts : List Nat
  pendingUpdPosts : List SchemaPostUpdate
deriving Repr, DecidableEq

/-- A session freshly opened for a request (`base/connect.py`, `db_conn`). -/
def Session.fresh (s : Store) : Session := ⟨s, [], [], [], [], []⟩

/-- Primary-key value the database assigns to the next inserted post row. -/
def maxId (ids : List Nat) : Nat := ids.foldr max 0

def Session.nextPostId (db : Session) : Nat :=
  maxId ((db.store.posts ++ db.pendingAddPosts).map PostRec.id) + 1

def Session.nextUserId (db : Session) : Nat :=
  maxId ((db.store.users ++ db.pendingAddUsers).map UserRec.id) + 1

/-- No two users share the `(name, login)` pair
(the `UniqueConstraint('name', 'login')` of `base/model.py`). -/
def namesLoginsDistinct : List UserRec → Bool
  | [] => true
  | u :: us =>
    us.all (fun v => !(v.name == u.name && v.login == u.login)) &&
      namesLoginsDistinct us

/-- Apply the pending `UPDATE`s (ORM attribute assignments flushed at commit)
to one row: an update touches exactly the rows whose primary key matches, and
sets only the `title` and `text` columns. -/
def applyUpd (upds : List SchemaPostUpdate) (p : PostRec) : PostRec :=
  upds.foldl
    (fun q u =>
      if q.id == u.id then
        { q with title := u.title.getD q.title, text := u.text.getD q.text }
      else q)
    p

/-- Result of `AsyncSession.commit()`: success, or an `IntegrityError` raised
by PostgreSQL. On failure the committed store is untouched and the pending
changes stay attached to the session until a rollback. -/
inductive CommitResult where
  | ok (db : Session)
  | integrityError (db : Session)
deriving Repr, DecidableEq

/-- Commit the session: apply deletions and updates, append insertions, and
enforce the PostgreSQL constraints — the author foreign key of inserted
posts, the `(name, login)` uniqueness of inserted users, and the foreign key
of rows still referencing a deleted user. -/
def Session.commit (db : Session) : CommitResult :=
  let remUsers := db.store.users.filter (fun u => !(db.pendingDelUsers.contains u.id))
  let remPosts :=
    (db.store.posts.filter (fun p => !(db.pendingDelPosts.contains p.id))).map
      (applyUpd db.pendingUpdPosts)
  let fkDelOk := db.pendingDelUsers.all (fun uid => remPosts.all (fun p => p.author != uid))
  let allUsers := remUsers ++ db.pendingAddUsers
  let uniqueOk :=
    db.pendingAddUsers.all
      (fun nu => remUsers.all (fun u => !(u.name == nu.name && u.login == nu.login))) &&
    namesLoginsDistinct db.pendingAddUsers
  let fkInsOk := db.pendingAddPosts.all (fun p => allUsers.any (fun u => u.id == p.author))
  if fkDelOk && uniqueOk && fkInsOk then
    .ok ⟨⟨allUsers, remPosts ++ db.pendingAddPosts⟩, [], [], [], [], []⟩
  else
    .integrityError db

/-- Model of `AsyncSession.rollback()`: discard the pending changes. -/
def Session.rollback (db : Session) : Session := Session.fresh db.store

/-- The sort relation of `ORDER BY post.created_at DESC`. -/
def createdAtDesc (a b : PostRec) : Prop := DateTime.le b.created_at a.created_at = true

instance : DecidableRel createdAtDesc :=
  fun a b => inferInstanceAs (Decidable (DateTime.le b.created_at a.created_at = true))

instance : IsTotal PostRec createdAtDesc where
  total a b := by
    have h := DateTime.le_total b.created_at a.created_at
    rcases Bool.or_eq_true_iff.mp h with h' | h'
    · exact Or.inl h'
    · exact Or.inr h'

instance : IsTrans PostRec createdAtDesc where
  trans a b c hab hbc := DateTime.le_trans c.created_at b.created_at a.created_at hbc hab

/-- The sort relation of `ORDER BY post.title DESC`. -/
def titleDesc (a b : PostRec) : Prop := strLe b.title a.title = true

instance : DecidableRel titleDesc :=
  fun a b => inferInstanceAs (Decidable (strLe b.title a.title = true))

instance : IsTotal PostRec titleDesc where
  total a b := by
    have h := strLe_total b.title a.title
    rcases Bool.or_eq_true_iff.mp h with h' | h'
    · exact Or.inl h'
    · exact Or.inr h'

instance : IsTrans PostRec titleDesc where
  trans a b c hab hbc := strLe_trans c.title b.title a.title hbc hab

/-- `DataBaseUser.get_user` (`base/user.py`): `SELECT … WHERE users.id = ?`,
first row. -/
def DataBaseUser.get_user (db : Session) (user_id : Nat) : Option UserRec :=
  db.store.users.find? (fun u => u.id == user_id)

/-- `DataBaseUser.find_token` (`base/user.py`): `SELECT … WHERE users.token = ?`,
first row. -/
def DataBaseUser.find_token (db : Session) (token : String) : Option UserRec :=
  db.store.users.find? (fun u => u.token == token)

/-- `DataBaseUser.get_verification` (`base/user.py`): select the token of the
first user whose login and password both match, returning a 404 result when
there is none and a 200 result carrying `token=<value>` otherwise. -/
def DataBaseUser.get_verification (db : Session) (verification : SchemaVerification) : Resp :=
  match (db.store.users.find?
      (fun u => u.login == verification.login && u.password == verification.password)).map
      UserRec.token with
  | none =>
    ⟨404, "Ошибка", some "Пользователь с указанными данными не найден"⟩
  | some user_token =>
    ⟨200, "Успешно", some ("token=" ++ user_token)⟩

/-- `DataBaseUser.create_user` (`base/user.py`): add the row built from the
schema and commit; an `IntegrityError` is answered with 409 after a rollback. -/
def DataBaseUser.create_user (db : Session) (user : SchemaUser) : Session × Resp :=
  let new_user : UserRec :=
    ⟨db.nextUserId, user.name, user.token, user.login, user.password⟩
  let db1 := { db with pendingAddUsers := db.pendingAddUsers ++ [new_user] }
  match db1.commit with
  | .ok db2 => (db2, ⟨201, "Успешно", some "Пользователь успешно создан"⟩)
  | .integrityError db2 =>
    (db2.rollback,
      ⟨409, "Ошибка", some "Пользователь с таким логином или токеном уже существует"⟩)

/-- `DataBaseUser.delete_user` (`base/user.py`): look the user up, answer 404
when absent, otherwise delete the row and commit; a database error is
answered with 500 after a rollback. -/
def DataBaseUser.delete_user (db : Session) (user_id : Nat) : Session × Resp :=
  match DataBaseUser.get_user db user_id with
  | none =>
    (db, ⟨404, "Ошибка",
      some ("Пользователь с ID " ++ natToString user_id ++ " не найден")⟩)
  | some user =>
    let db1 := { db with pendingDelUsers := db.pendingDelUsers ++ [user.id] }
    match db1.commit with
    | .ok db2 =>
      (db2, ⟨200, "Успешно",
        some ("Пользователь с ID " ++ natToString user_id ++ " успешно удален")⟩)
    | .integrityError db2 =>
      (db2.rollback,
        ⟨500, "Ошибка", some "Внутренняя ошибка сервера при удалении пользователя"⟩)

/-- `DataBasePost.get_user` (`base/post.py`): the display name of the user
with the given id, when present. -/
def DataBasePost.get_user (db : Session) (user_id : Nat) : Option String :=
  (db.store.users.find? (fun u => u.id == user_id)).map UserRec.name

/-- `DataBasePost.get_post` (`base/post.py`): `SELECT … WHERE post.id = ?`,
first row. -/
def DataBasePost.get_post (db : Session) (post_id : Nat) : Option PostRec :=
  db.store.posts.find? (fun p => p.id == post_id)

/-- `DataBasePost.get_posts` (`base/post.py`): the query built from
`filter_params`. The Python code chains `order_by` / `limit` / `where` onto
the statement in that textual order, but the compiled SQL applies the clauses
with SQL semantics: `WHERE`, then `ORDER BY … DESC`, then `LIMIT`. An
unrecognised `desc` value adds no `ORDER BY` clause. -/
def DataBasePost.get_posts (db : Session) (filter_params : FilterParams) : List PostRec :=
  let whereApplied :=
    match filter_params.author with
    | some a => db.store.posts.filter (fun p => p.author == a)
    | none => db.store.posts
  let ordered :=
    match filter_params.desc with
    | some d =>
      if d = "created_at" then whereApplied.insertionSort createdAtDesc
      else if d = "title" then whereApplied.insertionSort titleDesc
      else whereApplied
    | none => whereApplied
  match filter_params.limit with
  | some n => ordered.take n
  | none => ordered

/-- `DataBasePost.create_post` (`base/post.py`): add the row built from the
schema — the `created_at` column receiving the import-time default — and
commit. An `IntegrityError` (the author foreign key failing) is answered
with 404, and this branch issues NO rollback: the pending insert stays
attached to the session. -/
def DataBasePost.create_post (db : Session) (post : SchemaPost) : Session × Resp :=
  let new_post : PostRec :=
    ⟨db.nextPostId, post.title, post.author, post.text, postCreatedAtDefault⟩
  let db1 := { db with pendingAddPosts := db.pendingAddPosts ++ [new_post] }
  match db1.commit with
  | .ok db2 => (db2, ⟨201, "Успешно", none⟩)
  | .integrityError db2 =>
    (db2, ⟨404, "Ошибка", some "Указанный автор не существует"⟩)

/-- `DataBasePost.update_post` (`base/post.py`): look the post up, answer 404
when absent, otherwise assign the non-`None` fields and commit; a database
error is answered with 500 after a rollback. -/
def DataBasePost.update_post (db : Session) (post_update : SchemaPostUpdate) : Session × Resp :=
  match DataBasePost.get_post db post_update.id with
  | none => (db, ⟨404, "Ошибка", some "Пост не найден"⟩)
  | some _ =>
    let db1 := { db with pendingUpdPosts := db.pendingUpdPosts ++ [post_update] }
    match db1.commit with
    | .ok db2 => (db2, ⟨200, "Успешно", none⟩)
    | .integrityError db2 =>
      (db2.rollback, ⟨500, "Ошибка", some "Внутренняя ошибка сервера"⟩)

/-- `DataBasePost.delete_post` (`base/post.py`): look the post up, answer 404
when absent, otherwise delete the row and commit; a database error is
answered with 500 after a rollback. -/
def DataBasePost.delete_post (db : Session) (post_id : Nat) : Session × Resp :=
  match DataBasePost.get_post db post_id with
  | none => (db, ⟨404, "Ошибка", some "Пост не найден"⟩)
  | some post =>
    let db1 := { db with pendingDelPosts := db.pendingDelPosts ++ [post.id] }
    match db1.commit with
    | .ok db2 => (db2, ⟨200, "Успешно", none⟩)
    | .integrityError db2 =>
      (db2.rollback, ⟨500, "Ошибка", some "Внутренняя ошибка сервера"⟩)

/-- `DataBasePost.delete_posts_user` (`base/post.py`): fetch the user's posts
through `get_posts` with an author filter, answer 404 when the list is empty,
otherwise delete each of them and commit; a database error is answered with
500 after a rollback. -/
def DataBasePost.delete_posts_user (db : Session) (user_id : Nat) : Session × Resp :=
  let posts := DataBasePost.get_posts db ⟨none, none, some user_id⟩
  if posts.isEmpty then
    (db, ⟨404, "Ошибка", some "Посты не найдены"⟩)
  else
    let db1 := { db with pendingDelPosts := db.pendingDelPosts ++ posts.map PostRec.id }
    match db1.commit with
    | .ok db2 => (db2, ⟨200, "Успешно", none⟩)
    | .integrityError db2 =>
      (db2.rollback, ⟨500, "Ошибка", some "Внутренняя ошибка сервера"⟩)

/-- The formatted post returned by `MiddleLoyePost.get_post`. -/
structure PostView where
  title : String
  text : String
  author : String
  created_at : String
deriving Repr, DecidableEq

/-- The list entries returned by `MiddleLoyePost.get_posts`. -/
structure PostListItem where
  title : String
  id : Nat
  created_at : String
deriving Repr, DecidableEq

/-- Result of `MiddleLoyePost.get_post` (`server/post.py`): formatted data or
an error dictionary. -/
inductive GetPostResult where
  | ok (view : PostView)
  | error (message : String)
deriving Repr, DecidableEq

/-- Result of `MiddleLoyePost.get_posts` (`server/post.py`). -/
inductive GetPostsResult where
  | ok (items : List PostListItem)
  | error (message : String)
deriving Repr, DecidableEq

/-- Result of `MiddleLoyeUser.verification` (`server/user.py`): a token
dictionary or an error dictionary. -/
inductive VerificationResult where
  | token (t : String)
  | error (message : String)
deriving Repr, DecidableEq

/-- `MiddleLoyePost.get_post` (`server/post.py`): fetch the post, then its
author's display name — substituting a placeholder when the author row is
gone — and format `created_at` with `"%Y-%m-%d %H:%M"`. -/
def MiddleLoyePost.get_post (db : Session) (post_id : Nat) : GetPostResult :=
  match DataBasePost.get_post db post_id with
  | none => .error ("Пост с ID " ++ natToString post_id ++ " не найден")
  | some post =>
    let user_name := DataBasePost.get_user db post.author
    .ok
      ⟨post.title, post.text, user_name.getD "Неизвестный автор",
        strftime_ymd_hm post.created_at⟩

/-- Valid values of the `desc` sort parameter (`server/post.py`,
`valid_sort_fields`). -/
def validSortField (d : String) : Bool := d == "created_at" || d == "title"

/-- `MiddleLoyePost.get_posts` (`server/post.py`): reject an invalid `desc`
value before querying, then format each returned post. An empty query result
returns the empty list. -/
def MiddleLoyePost.get_posts (db : Session) (filter_params : FilterParams) : GetPostsResult :=
  match filter_params.desc with
  | some d =>
    if validSortField d then
      .ok ((DataBasePost.get_posts db filter_params).map
        (fun post => ⟨post.title, post.id, strftime_ymd_hm post.created_at⟩))
    else
      .error "Недопустимое поле для сортировки. Допустимые значения: created_at, title"
  | none =>
    .ok ((DataBasePost.get_posts db filter_params).map
      (fun post => ⟨post.title, post.id, strftime_ymd_hm post.created_at⟩))

/-- `MiddleLoyePost.new_post` (`server/post.py`): delegates to the database
layer. -/
def MiddleLoyePost.new_post (db : Session) (post : SchemaPost) : Session × Resp :=
  DataBasePost.create_post db post

/-- `MiddleLoyePost.update_post` (`server/post.py`): delegates to the database
layer. -/
def MiddleLoyePost.update_post (db : Session) (update_data : SchemaPostUpdate) : Session × Resp :=
  DataBasePost.update_post db update_data

/-- `MiddleLoyePost.delete_post_user` (`server/post.py`): delegates to
`delete_posts_user`, rewrapping the 200 answer. -/
def MiddleLoyePost.delete_post_user (db : Session) (user_id : Nat) : Session × Resp :=
  let r := DataBasePost.delete_posts_user db user_id
  if r.2.status_code == 200 then
    (r.1, ⟨200, "Успешно",
      some ("Все посты пользователя " ++ natToString user_id ++ " удалены")⟩)
  else r

/-- `MiddleLoyePost.delete_post` (`server/post.py`): delegates to the database
layer. -/
def MiddleLoyePost.delete_post (db : Session) (post_id : Nat) : Session × Resp :=
  DataBasePost.delete_post db post_id

/-- `MiddleLoyeUser.get_user` (`server/user.py`): delegates to the database
layer. -/
def MiddleLoyeUser.get_user (db : Session) (user_id : Nat) : Option UserRec :=
  DataBaseUser.get_user db user_id

/-- `MiddleLoyeUser.new_user` (`server/user.py`): overwrite the schema's
`token` field with a freshly generated `str(uuid4())` — modelled by the
`uuid` argument — then create the user. -/
def MiddleLoyeUser.new_user (db : Session) (user_data : SchemaUser) (uuid : String) :
    Session × Resp :=
  DataBaseUser.create_user db { user_data with token := uuid }

/-- `MiddleLoyeUser.verification` (`server/user.py`): on a 200 result whose
description starts with `token=`, answer with the value after the first
separator of `split("=")`; otherwise answer with an error dictionary. -/
def MiddleLoyeUser.verification (db : Session) (credentials : SchemaVerification) :
    VerificationResult :=
  let result := DataBaseUser.get_verification db credentials
  if result.status_code == 200 then
    let token_str := result.description.getD ""
    if pyStartsWith token_str "token=" then
      .token ((pySplit '=' token_str).getD 1 "")
    else
      .error (result.description.getD "Ошибка аутентификации")
  else
    .error (result.description.getD "Ошибка аутентификации")

/-- `MiddleLoyeUser.check_token` (`server/user.py`): a token is valid exactly
when some user row stores it. -/
def MiddleLoyeUser.check_token (db : Session) (token : String) : Bool :=
  (DataBaseUser.find_token db token).isSome

/-- `MiddleLoyeUser.delete_user` (`server/user.py`): delegates to the database
layer. -/
def MiddleLoyeUser.delete_user (db : Session) (user_id : Nat) : Session × Resp :=
  DataBaseUser.delete_user db user_id

/-- An HTTP response: a successful body, or an `HTTPException` with a status
code and detail message. -/
inductive HttpResult (α : Type) where
  | ok (value : α)
  | error (status_code : Nat) (detail : String)
deriving Repr, DecidableEq

/-- `POST /users/` (`router/user.py`, `create_user`): run the middle layer on
the request's fresh session; a non-201 result becomes an `HTTPException`.
The request's final store is the session's committed store — closing the
session (`base/connect.py`) discards whatever was not committed. -/
def Router.create_user (store : Store) (new_user : SchemaUser) (uuid : String) :
    Store × HttpResult Resp :=
  let r := MiddleLoyeUser.new_user (Session.fresh store) new_user uuid
  if r.2.status_code == 201 then (r.1.store, .ok r.2)
  else (r.1.store, .error r.2.status_code (r.2.description.getD "Unknown error"))

/-- `DELETE /users/{user_id}` (`router/user.py`, `delete_user`): first delete
the user's posts — a 404 from that step (no posts) is tolerated — then delete
the user, both on the same request session. -/
def Router.delete_user (store : Store) (user_id : Nat) : Store × HttpResult String :=
  let pr := MiddleLoyePost.delete_post_user (Session.fresh store) user_id
  if !(pr.2.status_code == 200 || pr.2.status_code == 404) then
    (pr.1.store, .error pr.2.status_code (pr.2.description.getD "Unknown error"))
  else
    let ur := MiddleLoyeUser.delete_user pr.1 user_id
    if ur.2.status_code != 200 then
      (ur.1.store, .error ur.2.status_code (ur.2.description.getD "Unknown error"))
    else
      (ur.1.store,
        .ok ("User " ++ natToString user_id ++ " and all their posts were deleted"))

/-- `POST /users/login` (`router/user.py`, `authenticate_user`): answer the
token on success and a 401 `HTTPException` otherwise. Reading never changes
the store. -/
def Router.authenticate_user (store : Store) (credentials : SchemaVerification) :
    HttpResult String :=
  match MiddleLoyeUser.verification (Session.fresh store) credentials with
  | .token t => .ok t
  | .error message => .error 401 message

/-- `POST /posts/` (`router/post.py`, `create_post`): the `verify_token`
dependency rejects an unknown token with 403 before the handler body runs;
otherwise the middle layer creates the post, non-201 results becoming
`HTTPException`s. -/
def Router.create_post (store : Store) (token : String) (new_post : SchemaPost) :
    Store × HttpResult Resp :=
  let db := Session.fresh store
  if !(MiddleLoyeUser.check_token db token) then
    (store, .error 403 "Invalid authentication token")
  else
    let r := MiddleLoyePost.new_post db new_post
    if r.2.status_code != 201 then
      (r.1.store, .error r.2.status_code (r.2.description.getD "Error creating post"))
    else (r.1.store, .ok r.2)

/-- `DELETE /posts/{post_id}` (`router/post.py`, `delete_post`): token check,
then deletion, non-200 results becoming `HTTPException`s. -/
def Router.delete_post (store : Store) (token : String) (post_id : Nat) :
    Store × HttpResult Resp :=
  let db := Session.fresh store
  if !(MiddleLoyeUser.check_token db token) then
    (store, .error 403 "Invalid authentication token")
  else
    let r := MiddleLoyePost.delete_post db post_id
    if r.2.status_code != 200 then
      (r.1.store, .error r.2.status_code (r.2.description.getD "Error deleting post"))
    else (r.1.store, .ok r.2)

/-- `PATCH /posts/{post_id}` (`router/post.py`, `update_post`): token check,
then a 400 when the path id and the body id disagree, then the update,
non-200 results becoming `HTTPException`s. -/
def Router.update_post (store : Store) (token : String) (post_id : Nat)
    (update : SchemaPostUpdate) : Store × HttpResult Resp :=
  let db := Session.fresh store
  if !(MiddleLoyeUser.check_token db token) then
    (store, .error 403 "Invalid authentication token")
  else if update.id != post_id then
    (store, .error 400 "Post ID in path does not match ID in request body")
  else
    let r := MiddleLoyePost.update_post db update
    if r.2.status_code != 200 then
      (r.1.store, .error r.2.status_code (r.2.description.getD "Error updating post"))
    else (r.1.store, .ok r.2)

/-- `GET /posts/{post_id}` (`router/post.py`, `get_post`): a middle-layer
error dictionary becomes a 404 `HTTPException`. -/
def Router.get_post (store : Store) (post_id : Nat) : HttpResult PostView :=
  match MiddleLoyePost.get_post (Session.fresh store) post_id with
  | .ok view => .ok view
  | .error message => .error 404 message

/-- `GET /posts/` (`router/post.py`, `get_posts`): build `filter_params` from
the query string — `sort_by` defaults to `"created_at"` when the parameter is
absent, and `if sort_by:` skips the `desc` key when its value is the EMPTY
string — then run the middle layer, its error dictionary becoming a 400
`HTTPException`. -/
def Router.get_posts (store : Store) (sort_by : String) (limit : Option Nat)
    (author_id : Option Nat) : HttpResult (List PostListItem) :=
  let filter_params : FilterParams :=
    ⟨if sort_by != "" then some sort_by else none, limit, author_id⟩
  match MiddleLoyePost.get_posts (Session.fresh store) filter_params with
  | .ok items => .ok items
  | .error message => .error 400 message

/-- Committing a fresh session holding one pending user insert: PostgreSQL
accepts it exactly when no stored user already has the `(name, login)` pair. -/
theorem commit_fresh_addUser (s : Store) (u : UserRec) :
    Session.commit ⟨s, [u], [], [], [], []⟩ =
      if s.users.all (fun v => !(v.name == u.name && v.login == u.login)) then
        CommitResult.ok ⟨⟨s.users ++ [u], s.posts⟩, [], [], [], [], []⟩
      else
        CommitResult.integrityError ⟨s, [u], [], [], [], []⟩ := by
  simp only [Session.commit, namesLoginsDistinct, applyUpd, List.all_nil, List.all_cons,
    List.foldl_nil, Bool.and_true, Bool.true_and, List.append_nil, List.nil_append]
  have h1 : s.users.filter (fun u => !([] : List Nat).contains u.id) = s.users := by
    simp
  have h2 : (s.posts.filter (fun p => !([] : List Nat).contains p.id)).map
      (fun q => q) = s.posts := by
    simp
  rw [h1]
  split
  · have ha : applyUpd [] = fun p => p := rfl
    simp [ha]
  · rfl

/-- Committing a fresh session holding one pending post insert: PostgreSQL
accepts it exactly when the author foreign key resolves to a stored user. -/
theorem commit_fresh_addPost (s : Store) (p : PostRec) :
    Session.commit ⟨s, [], [p], [], [], []⟩ =
      if s.users.any (fun u => u.id == p.author) then
        CommitResult.ok ⟨⟨s.users, s.posts ++ [p]⟩, [], [], [], [], []⟩
      else
        CommitResult.integrityError ⟨s, [], [p], [], [], []⟩ := by
  simp only [Session.commit, namesLoginsDistinct, List.all_nil, List.all_cons,
    Bool.and_true, Bool.true_and, List.append_nil, List.nil_append]
  have h1 : s.users.filter (fun u => !([] : List Nat).contains u.id) = s.users := by
    simp
  rw [h1]
  split
  · have ha : applyUpd [] = fun p => p := rfl
    simp [ha]
  · rfl

/-- Committing a fresh session holding only pending post deletions: nothing
constrains post rows, so the commit always succeeds and removes exactly the
rows whose id is listed. -/
theorem commit_fresh_delPosts (s : Store) (ids : List Nat) :
    Session.commit ⟨s, [], [], [], ids, []⟩ =
      CommitResult.ok
        ⟨⟨s.users, s.posts.filter (fun p => !(ids.contains p.id))⟩, [], [], [], [], []⟩ := by
  simp only [Session.commit, namesLoginsDistinct, List.all_nil, List.all_cons,
    Bool.and_true, Bool.true_and, List.append_nil, List.nil_append]
  have h1 : s.users.filter (fun u => !([] : List Nat).contains u.id) = s.users := by
    simp
  rw [h1]
  have ha : applyUpd [] = fun p => p := rfl
  simp [ha]

/-- Committing a fresh session holding one pending user deletion: PostgreSQL
accepts it exactly when no remaining post still references the user. -/
theorem commit_fresh_delUser (s : Store) (uid : Nat) :
    Session.commit ⟨s, [], [], [uid], [], []⟩ =
      if s.posts.all (fun p => p.author != uid) then
        CommitResult.ok
          ⟨⟨s.users.filter (fun u => !(u.id == uid)), s.posts⟩, [], [], [], [], []⟩
      else
        CommitResult.integrityError ⟨s, [], [], [uid], [], []⟩ := by
  simp only [Session.commit, namesLoginsDistinct, List.all_nil, List.all_cons,
    Bool.and_true, Bool.true_and, List.append_nil, List.nil_append]
  have ha : applyUpd [] = fun p => p := rfl
  have h2 : (s.posts.filter (fun p => !([] : List Nat).contains p.id)).map
      (applyUpd []) = s.posts := by
    simp [ha]
  rw [h2]
  split
  · simp only [List.contains_cons, List.contains_nil, Bool.or_false]
  · rfl

/-- Committing a fresh session holding one pending post update: nothing
constrains the updated columns, so the commit always succeeds and applies the
update to the rows whose id matches. -/
theorem commit_fresh_updPost (s : Store) (upd : SchemaPostUpdate) :
    Session.commit ⟨s, [], [], [], [], [upd]⟩ =
      CommitResult.ok ⟨⟨s.users, s.posts.map (applyUpd [upd])⟩, [], [], [], [], []⟩ := by
  simp only [Session.commit, namesLoginsDistinct, List.all_nil, List.all_cons,
    Bool.and_true, Bool.true_and, List.append_nil, List.nil_append]
  have h1 : s.users.filter (fun u => !([] : List Nat).contains u.id) = s.users := by
    simp
  rw [h1]
  simp

/-- Unfolding lemma: the full behaviour of the `POST /users/` request. The
new row either extends the table — with the server-generated `uuid` as its
token — or the `(name, login)` conflict rolls the insert back and answers
409, leaving the store untouched. -/
theorem Router.create_user_spec (store : Store) (user : SchemaUser) (uuid : String) :
    Router.create_user store user uuid =
      if store.users.all (fun v => !(v.name == user.name && v.login == user.login)) then
        (⟨store.users ++
            [⟨maxId (store.users.map UserRec.id) + 1, user.name, uuid, user.login,
              user.password⟩],
          store.posts⟩,
          .ok ⟨201, "Успешно", some "Пользователь успешно создан"⟩)
      else
        (store, .error 409 "Пользователь с таким логином или токеном уже существует") := by
  unfold Router.create_user MiddleLoyeUser.new_user DataBaseUser.create_user
  simp only [Session.fresh, Session.nextUserId, List.append_nil, List.nil_append]
  rw [commit_fresh_addUser]
  split
  · rfl
  · rfl

/-- Appending a user that clashes with no stored `(name, login)` pair keeps
the pairs pairwise distinct. -/
theorem namesLoginsDistinct_append_singleton (us : List UserRec) (u : UserRec)
    (hd : namesLoginsDistinct us = true)
    (hall : us.all (fun v => !(v.name == u.name && v.login == u.login)) = true) :
    namesLoginsDistinct (us ++ [u]) = true := by
  induction us with
  | nil => simp [namesLoginsDistinct]
  | cons w ws ih =>
    simp only [namesLoginsDistinct, List.all_cons, List.cons_append,
      Bool.and_eq_true] at hd hall ⊢
    obtain ⟨hw, hws⟩ := hd
    obtain ⟨hwu, hwsall⟩ := hall
    refine ⟨?_, ih hws hwsall⟩
    simp only [List.append_eq, List.all_append, List.all_cons, List.all_nil,
      Bool.and_eq_true, Bool.and_true, and_true]
    refine ⟨hw, ?_⟩
    have h' : ¬w.name = u.name ∨ ¬w.login = u.login := by
      rcases em (w.name = u.name) with he | he
      · exact Or.inr (by simpa [he] using hwu)
      · exact Or.inl he
    rcases h' with h | h
    · simp [show ¬u.name = w.name from fun he => h he.symm]
    · simp [show ¬u.login = w.login from fun he => h he.symm]

/-- C5: the `(name, login)` pair is unique — user creation preserves pairwise
distinctness of the stored `(name, login)` pairs, and a request whose pair
matches a stored user's is answered with HTTP 409 and leaves the store (in
particular the user table) unchanged. -/
theorem C5_name_login_unique (store : Store) (new_user : SchemaUser) (uuid : String) :
    (namesLoginsDistinct store.users = true →
      namesLoginsDistinct (Router.create_user store new_user uuid).1.users = true) ∧
    ((∃ v ∈ store.users, v.name = new_user.name ∧ v.login = new_user.login) →
      Router.create_user store new_user uuid =
        (store, .error 409 "Пользователь с таким логином или токеном уже существует")) := by
  constructor
  · intro hd
    rw [Router.create_user_spec]
    split
    · rename_i h
      exact namesLoginsDistinct_append_singleton store.users _ hd h
    · exact hd
  · rintro ⟨v, hv, hname, hlogin⟩
    have hfalse :
        ¬(store.users.all
            (fun w => !(w.name == new_user.name && w.login == new_user.login)) = true) := by
      simp only [List.all_eq_true, not_forall]
      exact ⟨v, hv, by simp [hname, hlogin]⟩
    rw [Router.create_user_spec, if_neg hfalse]

/-- Witness for C5 at a concrete store: creating a second "alice"/"l" user is
refused with 409 and the table stays distinct. -/
theorem C5_name_login_unique_witness :
    namesLoginsDistinct
      (Router.create_user (Store.mk [UserRec.mk 1 "alice" "t" "l" "p"] [])
        (SchemaUser.mk "alice" "x" "l" "q") "uuid2").1.users = true ∧
    Router.create_user (Store.mk [UserRec.mk 1 "alice" "t" "l" "p"] [])
        (SchemaUser.mk "alice" "x" "l" "q") "uuid2" =
      (Store.mk [UserRec.mk 1 "alice" "t" "l" "p"] [],
        .error 409 "Пользователь с таким логином или токеном уже существует") := by
  have h := C5_name_login_unique (Store.mk [UserRec.mk 1 "alice" "t" "l" "p"] [])
    (SchemaUser.mk "alice" "x" "l" "q") "uuid2"
  exact ⟨h.1 (by decide), h.2 ⟨UserRec.mk 1 "alice" "t" "l" "p", by decide, rfl, rfl⟩⟩

/-- C9: the stored token of a newly created user is the server-generated
uuid, and two creation requests differing only in the client-supplied
`token` field behave identically — the client cannot choose the token. -/
theorem C9_token_not_client_chosen (store : Store) (u1 u2 : SchemaUser) (uuid : String)
    (hname : u1.name = u2.name) (hlogin : u1.login = u2.login)
    (hpassword : u1.password = u2.password) :
    Router.create_user store u1 uuid = Router.create_user store u2 uuid ∧
    (∀ r, (Router.create_user store u1 uuid).2 = .ok r →
      (Router.create_user store u1 uuid).1.users =
        store.users ++
          [⟨maxId (store.users.map UserRec.id) + 1, u1.name, uuid, u1.login,
            u1.password⟩]) := by
  obtain ⟨n1, t1, l1, p1⟩ := u1
  obtain ⟨n2, t2, l2, p2⟩ := u2
  dsimp only at hname hlogin hpassword
  subst hname; subst hlogin; subst hpassword
  constructor
  · rfl
  · intro r hr
    rw [Router.create_user_spec] at hr ⊢
    split at hr
    · rename_i h
      rw [if_pos h]
    · simp at hr

/-- Witness for C9 at a concrete store: two requests with different
client-supplied tokens coincide, and the stored token is the server uuid. -/
theorem C9_token_not_client_chosen_witness :
    Router.create_user (Store.mk [] []) (SchemaUser.mk "alice" "client-token" "l" "p")
        "server-uuid" =
      Router.create_user (Store.mk [] []) (SchemaUser.mk "alice" "another-token" "l" "p")
        "server-uuid" ∧
    (Router.create_user (Store.mk [] []) (SchemaUser.mk "alice" "client-token" "l" "p")
        "server-uuid").1.users =
      [UserRec.mk 1 "alice" "server-uuid" "l" "p"] := by
  have h := C9_token_not_client_chosen (Store.mk [] [])
    (SchemaUser.mk "alice" "client-token" "l" "p")
    (SchemaUser.mk "alice" "another-token" "l" "p") "server-uuid" rfl rfl rfl
  exact ⟨h.1, by decide⟩

/-- C2: a post mutation request whose `token` query parameter is no stored
user's token is rejected with HTTP 403 and leaves the store unchanged, for
all three mutating endpoints; a token stored by some user passes the
`verify_token` check. -/
theorem C2_token_check (store : Store) (token : String) (new_post : SchemaPost)
    (post_id : Nat) (update : SchemaPostUpdate) :
    ((∀ u ∈ store.users, u.token ≠ token) →
      Router.create_post store token new_post =
        (store, .error 403 "Invalid authentication token") ∧
      Router.update_post store token post_id update =
        (store, .error 403 "Invalid authentication token") ∧
      Router.delete_post store token post_id =
        (store, .error 403 "Invalid authentication token")) ∧
    ((∃ u ∈ store.users, u.token = token) →
      MiddleLoyeUser.check_token (Session.fresh store) token = true) := by
  constructor
  · intro h
    have hn : store.users.find? (fun u => u.token == token) = none := by
      rw [List.find?_eq_none]
      intro u hu
      simpa using h u hu
    have hc : MiddleLoyeUser.check_token (Session.fresh store) token = false := by
      simp [MiddleLoyeUser.check_token, DataBaseUser.find_token, Session.fresh, hn]
    refine ⟨?_, ?_, ?_⟩ <;>
      simp [Router.create_post, Router.update_post, Router.delete_post, hc]
  · rintro ⟨u, hu, htok⟩
    have : (store.users.find? (fun u => u.token == token)).isSome := by
      rw [List.find?_isSome]
      exact ⟨u, hu, by simp [htok]⟩
    simpa [MiddleLoyeUser.check_token, DataBaseUser.find_token, Session.fresh] using this

/-- Witness for C2 at a concrete store: the token "bad" is rejected by all
three mutating endpoints and "good" passes the check. -/
theorem C2_token_check_witness :
    Router.create_post (Store.mk [UserRec.mk 1 "a" "good" "l" "p"] []) "bad"
        (SchemaPost.mk "t" "x" 1) =
      (Store.mk [UserRec.mk 1 "a" "good" "l" "p"] [],
        .error 403 "Invalid authentication token") ∧
    Router.update_post (Store.mk [UserRec.mk 1 "a" "good" "l" "p"] []) "bad" 1
        (SchemaPostUpdate.mk 1 none none) =
      (Store.mk [UserRec.mk 1 "a" "good" "l" "p"] [],
        .error 403 "Invalid authentication token") ∧
    Router.delete_post (Store.mk [UserRec.mk 1 "a" "good" "l" "p"] []) "bad" 1 =
      (Store.mk [UserRec.mk 1 "a" "good" "l" "p"] [],
        .error 403 "Invalid authentication token") ∧
    MiddleLoyeUser.check_token
      (Session.fresh (Store.mk [UserRec.mk 1 "a" "good" "l" "p"] [])) "good" = true := by
  have h1 := (C2_token_check (Store.mk [UserRec.mk 1 "a" "good" "l" "p"] []) "bad"
    (SchemaPost.mk "t" "x" 1) 1 (SchemaPostUpdate.mk 1 none none)).1 (by decide)
  have h2 := (C2_token_check (Store.mk [UserRec.mk 1 "a" "good" "l" "p"] []) "good"
    (SchemaPost.mk "t" "x" 1) 1 (SchemaPostUpdate.mk 1 none none)).2
    ⟨UserRec.mk 1 "a" "good" "l" "p", by decide, rfl⟩
  exact ⟨h1.1, h1.2.1, h1.2.2, h2⟩

/-- Unfolding lemma: `DataBaseUser.create_user` on a request's fresh session. -/
theorem DataBaseUser.create_user_fresh (s : Store) (user : SchemaUser) :
    DataBaseUser.create_user (Session.fresh s) user =
      if s.users.all (fun v => !(v.name == user.name && v.login == user.login)) then
        (⟨⟨s.users ++
            [⟨maxId (s.users.map UserRec.id) + 1, user.name, user.token, user.login,
              user.password⟩],
          s.posts⟩, [], [], [], [], []⟩,
          ⟨201, "Успешно", some "Пользователь успешно создан"⟩)
      else
        (Session.fresh s,
          ⟨409, "Ошибка", some "Пользователь с таким логином или токеном уже существует"⟩) := by
  unfold DataBaseUser.create_user
  simp only [Session.fresh, Session.nextUserId, List.append_nil, List.nil_append]
  rw [commit_fresh_addUser]
  by_cases hc :
      (s.users.all fun v => !(v.name == user.name && v.login == user.login)) = true
  · rw [if_pos hc, if_pos hc]
  · rw [if_neg hc, if_neg hc]
    rfl

/-- Unfolding lemma: `DataBasePost.create_post` on a request's fresh session.
Note the error branch: the response is 404 but the pending insert is NOT
rolled back (`base/post.py` omits the `rollback()` call in its
`IntegrityError` handler); the committed store is unchanged either way. -/
theorem DataBasePost.create_post_fresh (s : Store) (post : SchemaPost) :
    DataBasePost.create_post (Session.fresh s) post =
      if s.users.any (fun u => u.id == post.author) then
        (⟨⟨s.users,
            s.posts ++
              [⟨maxId (s.posts.map PostRec.id) + 1, post.title, post.author, post.text,
                postCreatedAtDefault⟩]⟩, [], [], [], [], []⟩,
          ⟨201, "Успешно", none⟩)
      else
        (⟨s, [],
          [⟨maxId (s.posts.map PostRec.id) + 1, post.title, post.author, post.text,
            postCreatedAtDefault⟩], [], [], []⟩,
          ⟨404, "Ошибка", some "Указанный автор не существует"⟩) := by
  unfold DataBasePost.create_post
  simp only [Session.fresh, Session.nextPostId, List.append_nil, List.nil_append]
  rw [commit_fresh_addPost]
  by_cases hc : (s.users.any fun u => u.id == post.author) = true
  · rw [if_pos hc, if_pos hc]
  · rw [if_neg hc, if_neg hc]

/-- Unfolding lemma: `DataBaseUser.delete_user` on a request's fresh session. -/
theorem DataBaseUser.delete_user_fresh (s : Store) (uid : Nat) :
    DataBaseUser.delete_user (Session.fresh s) uid =
      match s.users.find? (fun u => u.id == uid) with
      | none =>
        (Session.fresh s,
          ⟨404, "Ошибка", some ("Пользователь с ID " ++ natToString uid ++ " не найден")⟩)
      | some user =>
        if s.posts.all (fun p => p.author != user.id) then
          (⟨⟨s.users.filter (fun u => !(u.id == user.id)), s.posts⟩, [], [], [], [], []⟩,
            ⟨200, "Успешно",
              some ("Пользователь с ID " ++ natToString uid ++ " успешно удален")⟩)
        else
          (Session.fresh s,
            ⟨500, "Ошибка", some "Внутренняя ошибка сервера при удалении пользователя"⟩) := by
  unfold DataBaseUser.delete_user DataBaseUser.get_user
  simp only [Session.fresh]
  cases hf : s.users.find? (fun u => u.id == uid) with
  | none => rfl
  | some user =>
    simp only [List.nil_append]
    rw [commit_fresh_delUser]
    by_cases hc : (s.posts.all fun p => p.author != user.id) = true
    · rw [if_pos hc, if_pos hc]
    · rw [if_neg hc, if_neg hc]
      rfl

/-- Unfolding lemma: `DataBasePost.update_post` on a request's fresh session. -/
theorem DataBasePost.update_post_fresh (s : Store) (upd : SchemaPostUpdate) :
    DataBasePost.update_post (Session.fresh s) upd =
      match s.posts.find? (fun p => p.id == upd.id) with
      | none => (Session.fresh s, ⟨404, "Ошибка", some "Пост не найден"⟩)
      | some _ =>
        (⟨⟨s.users, s.posts.map (applyUpd [upd])⟩, [], [], [], [], []⟩,
          ⟨200, "Успешно", none⟩) := by
  unfold DataBasePost.update_post DataBasePost.get_post
  simp only [Session.fresh]
  cases hf : s.posts.find? (fun p => p.id == upd.id) with
  | none => rfl
  | some post =>
    simp only [List.nil_append]
    rw [commit_fresh_updPost]

/-- Unfolding lemma: `DataBasePost.delete_post` on a request's fresh session. -/
theorem DataBasePost.delete_post_fresh (s : Store) (pid : Nat) :
    DataBasePost.delete_post (Session.fresh s) pid =
      match s.posts.find? (fun p => p.id == pid) with
      | none => (Session.fresh s, ⟨404, "Ошибка", some "Пост не найден"⟩)
      | some post =>
        (⟨⟨s.users, s.posts.filter (fun p => !(p.id == post.id))⟩, [], [], [], [], []⟩,
          ⟨200, "Успешно", none⟩) := by
  unfold DataBasePost.delete_post DataBasePost.get_post
  simp only [Session.fresh]
  cases hf : s.posts.find? (fun p => p.id == pid) with
  | none => rfl
  | some post =>
    simp only [List.nil_append]
    rw [commit_fresh_delPosts]
    simp only [List.contains_cons, List.contains_nil, Bool.or_false]

/-- Unfolding lemma: `DataBasePost.delete_posts_user` on a request's fresh
session. The deletions are keyed by the ids of the author's posts. -/
theorem DataBasePost.delete_posts_user_fresh (s : Store) (uid : Nat) :
    DataBasePost.delete_posts_user (Session.fresh s) uid =
      if (s.posts.filter (fun p => p.author == uid)).isEmpty then
        (Session.fresh s, ⟨404, "Ошибка", some "Посты не найдены"⟩)
      else
        (⟨⟨s.users,
            s.posts.filter
              (fun p =>
                !(((s.posts.filter (fun q => q.author == uid)).map PostRec.id).contains
                  p.id))⟩, [], [], [], [], []⟩,
          ⟨200, "Успешно", none⟩) := by
  unfold DataBasePost.delete_posts_user DataBasePost.get_posts
  simp only [Session.fresh]
  split
  · rfl
  · simp only [List.nil_append]
    rw [commit_fresh_delPosts]

/-- A token stored by some user passes `check_token`. -/
theorem check_token_true_of_mem (store : Store) (token : String)
    (h : ∃ u ∈ store.users, u.token = token) :
    MiddleLoyeUser.check_token (Session.fresh store) token = true := by
  obtain ⟨u, hu, htok⟩ := h
  have : (store.users.find? (fun u => u.token == token)).isSome := by
    rw [List.find?_isSome]
    exact ⟨u, hu, by simp [htok]⟩
  simpa [MiddleLoyeUser.check_token, DataBaseUser.find_token, Session.fresh] using this

/-- Every id occurring in the list is bounded by `maxId`. -/
theorem le_maxId_of_mem (ids : List Nat) (x : Nat) (hx : x ∈ ids) : x ≤ maxId ids := by
  induction ids with
  | nil => cases hx
  | cons y ys ih =>
    rcases List.mem_cons.mp hx with rfl | hx'
    · exact Nat.le_max_left _ _
    · exact Nat.le_trans (ih hx') (Nat.le_max_right _ _)

/-- The id the database assigns to a new post matches no stored post. -/
theorem find?_nextPostId_none (posts : List PostRec) :
    posts.find? (fun q => q.id == maxId (posts.map PostRec.id) + 1) = none := by
  rw [List.find?_eq_none]
  intro q hq
  have hle : q.id ≤ maxId (posts.map PostRec.id) :=
    le_maxId_of_mem _ _ (List.mem_map_of_mem PostRec.id hq)
  simp only [beq_iff_eq]
  omega

/-- C8: whenever a database-layer operation reports a failure, the status
code it is mapped to is 404, 409 or 500, and the request's committed store is
unchanged by the failed operation. -/
theorem C8_errors_mapped_store_unchanged (store : Store) (user : SchemaUser)
    (post : SchemaPost) (upd : SchemaPostUpdate) (uid pid : Nat) :
    ((DataBaseUser.create_user (Session.fresh store) user).2.status_code ≠ 201 →
      (DataBaseUser.create_user (Session.fresh store) user).2.status_code = 409 ∧
      (DataBaseUser.create_user (Session.fresh store) user).1.store = store) ∧
    ((DataBaseUser.delete_user (Session.fresh store) uid).2.status_code ≠ 200 →
      ((DataBaseUser.delete_user (Session.fresh store) uid).2.status_code = 404 ∨
        (DataBaseUser.delete_user (Session.fresh store) uid).2.status_code = 500) ∧
      (DataBaseUser.delete_user (Session.fresh store) uid).1.store = store) ∧
    ((DataBasePost.create_post (Session.fresh store) post).2.status_code ≠ 201 →
      (DataBasePost.create_post (Session.fresh store) post).2.status_code = 404 ∧
      (DataBasePost.create_post (Session.fresh store) post).1.store = store) ∧
    ((DataBasePost.update_post (Session.fresh store) upd).2.status_code ≠ 200 →
      (DataBasePost.update_post (Session.fresh store) upd).2.status_code = 404 ∧
      (DataBasePost.update_post (Session.fresh store) upd).1.store = store) ∧
    ((DataBasePost.delete_post (Session.fresh store) pid).2.status_code ≠ 200 →
      (DataBasePost.delete_post (Session.fresh store) pid).2.status_code = 404 ∧
      (DataBasePost.delete_post (Session.fresh store) pid).1.store = store) ∧
    ((DataBasePost.delete_posts_user (Session.fresh store) uid).2.status_code ≠ 200 →
      (DataBasePost.delete_posts_user (Session.fresh store) uid).2.status_code = 404 ∧
      (DataBasePost.delete_posts_user (Session.fresh store) uid).1.store = store) := by
  refine ⟨?_, ?_, ?_, ?_, ?_, ?_⟩
  · intro h
    rw [DataBaseUser.create_user_fresh] at h ⊢
    by_cases hc :
        (store.users.all fun v => !(v.name == user.name && v.login == user.login)) = true
    · rw [if_pos hc] at h
      simp at h
    · rw [if_neg hc]
      exact ⟨rfl, rfl⟩
  · intro h
    rw [DataBaseUser.delete_user_fresh] at h ⊢
    cases hf : store.users.find? (fun u => u.id == uid) with
    | none =>
      exact ⟨Or.inl rfl, rfl⟩
    | some u =>
      rw [hf] at h
      dsimp only at h ⊢
      by_cases hc : (store.posts.all fun p => p.author != u.id) = true
      · rw [if_pos hc] at h
        simp at h
      · rw [if_neg hc]
        exact ⟨Or.inr rfl, rfl⟩
  · intro h
    rw [DataBasePost.create_post_fresh] at h ⊢
    by_cases hc : (store.users.any fun u => u.id == post.author) = true
    · rw [if_pos hc] at h
      simp at h
    · rw [if_neg hc]
      exact ⟨rfl, rfl⟩
  · intro h
    rw [DataBasePost.update_post_fresh] at h ⊢
    cases hf : store.posts.find? (fun p => p.id == upd.id) with
    | none =>
      exact ⟨rfl, rfl⟩
    | some p =>
      rw [hf] at h
      simp at h
  · intro h
    rw [DataBasePost.delete_post_fresh] at h ⊢
    cases hf : store.posts.find? (fun p => p.id == pid) with
    | none =>
      exact ⟨rfl, rfl⟩
    | some p =>
      rw [hf] at h
      simp at h
  · intro h
    rw [DataBasePost.delete_posts_user_fresh] at h ⊢
    by_cases hc : (store.posts.filter (fun p => p.author == uid)).isEmpty = true
    · rw [if_pos hc]
      exact ⟨rfl, rfl⟩
    · rw [if_neg hc] at h
      simp at h

/-- Witness for C8 at concrete failing inputs: a duplicate `(name, login)`
insert answers 409, a missing user answers 404 on deletion, a missing author
answers 404 on post creation, and missing posts answer 404 on update,
deletion and cascade deletion — each leaving the store unchanged. -/
theorem C8_errors_mapped_store_unchanged_witness :
    (DataBaseUser.create_user (Session.fresh (Store.mk [UserRec.mk 1 "alice" "t" "l" "p"] []))
        (SchemaUser.mk "alice" "x" "l" "q")).2.status_code = 409 ∧
    (DataBaseUser.create_user (Session.fresh (Store.mk [UserRec.mk 1 "alice" "t" "l" "p"] []))
        (SchemaUser.mk "alice" "x" "l" "q")).1.store =
      Store.mk [UserRec.mk 1 "alice" "t" "l" "p"] [] ∧
    ((DataBaseUser.delete_user (Session.fresh (Store.mk [UserRec.mk 1 "alice" "t" "l" "p"] []))
        5).2.status_code = 404 ∨
      (DataBaseUser.delete_user (Session.fresh (Store.mk [UserRec.mk 1 "alice" "t" "l" "p"] []))
        5).2.status_code = 500) ∧
    (DataBaseUser.delete_user (Session.fresh (Store.mk [UserRec.mk 1 "alice" "t" "l" "p"] []))
        5).1.store = Store.mk [UserRec.mk 1 "alice" "t" "l" "p"] [] ∧
    (DataBasePost.create_post (Session.fresh (Store.mk [UserRec.mk 1 "alice" "t" "l" "p"] []))
        (SchemaPost.mk "t" "x" 99)).2.status_code = 404 ∧
    (DataBasePost.create_post (Session.fresh (Store.mk [UserRec.mk 1 "alice" "t" "l" "p"] []))
        (SchemaPost.mk "t" "x" 99)).1.store =
      Store.mk [UserRec.mk 1 "alice" "t" "l" "p"] [] ∧
    (DataBasePost.update_post (Session.fresh (Store.mk [UserRec.mk 1 "alice" "t" "l" "p"] []))
        (SchemaPostUpdate.mk 42 none none)).2.status_code = 404 ∧
    (DataBasePost.delete_post (Session.fresh (Store.mk [UserRec.mk 1 "alice" "t" "l" "p"] []))
        7).2.status_code = 404 ∧
    (DataBasePost.delete_posts_user
        (Session.fresh (Store.mk [UserRec.mk 1 "alice" "t" "l" "p"] [])) 5).2.status_code =
      404 := by
  have h := C8_errors_mapped_store_unchanged (Store.mk [UserRec.mk 1 "alice" "t" "l" "p"] [])
    (SchemaUser.mk "alice" "x" "l" "q") (SchemaPost.mk "t" "x" 99)
    (SchemaPostUpdate.mk 42 none none) 5 7
  obtain ⟨h1, h2, h3, h4, h5, h6⟩ := h
  have r1 := h1 (by decide)
  have r2 := h2 (by decide)
  have r3 := h3 (by decide)
  have r4 := h4 (by decide)
  have r5 := h5 (by decide)
  have r6 := h6 (by decide)
  exact ⟨r1.1, r1.2, r2.1, r2.2, r3.1, r3.2, r4.1, r5.1, r6.1⟩

/-- The store and the two successive `POST /posts/` requests used to exhibit
the constant `created_at` value. -/
def twoPostsStore : Store := ⟨[⟨1, "alice", "tok-a", "l", "p"⟩], []⟩

def twoPostsStep1 : Store × HttpResult Resp :=
  Router.create_post twoPostsStore "tok-a" ⟨"first", "text1", 1⟩

def twoPostsStep2 : Store × HttpResult Resp :=
  Router.create_post twoPostsStep1.1 "tok-a" ⟨"second", "text2", 1⟩

/-- C7: the `created_at` column default of `base/model.py` is
`datetime.utcnow()` evaluated once at import, so two posts created by
distinct successful requests — necessarily at different times — both carry
the same constant creation timestamp: the stored timestamp is NOT the time
the post was created, and the creation-time sort cannot reflect creation
order. -/
theorem C7_created_at_import_time_constant :
    twoPostsStep1.2 = HttpResult.ok ⟨201, "Успешно", none⟩ ∧
    twoPostsStep2.2 = HttpResult.ok ⟨201, "Успешно", none⟩ ∧
    twoPostsStep2.1.posts =
      [⟨1, "first", 1, "text1", postCreatedAtDefault⟩,
        ⟨2, "second", 1, "text2", postCreatedAtDefault⟩] ∧
    (∀ p ∈ twoPostsStep2.1.posts, ∀ q ∈ twoPostsStep2.1.posts,
      p.created_at = q.created_at) := by
  refine ⟨by decide, by decide, by decide, by decide⟩

/-- C10: a successful `PATCH /posts/{post_id}` changes at most the `title`
and `text` fields of the posts whose id matches the update — record update
keeps `id`, `author` and `created_at` — while every post with a different id
and the whole user table are returned unchanged. -/
theorem C10_update_frame (store : Store) (token : String) (post_id : Nat)
    (update : SchemaPostUpdate) (p : PostRec)
    (hfind : store.posts.find? (fun q => q.id == update.id) = some p)
    (htok : ∃ u ∈ store.users, u.token = token)
    (hid : update.id = post_id) :
    Router.update_post store token post_id update =
      (⟨store.users,
        store.posts.map
          (fun q =>
            if q.id == update.id then
              { q with title := update.title.getD q.title,
                       text := update.text.getD q.text }
            else q)⟩,
        .ok ⟨200, "Успешно", none⟩) := by
  subst hid
  have hcheck := check_token_true_of_mem store token htok
  have hdb : MiddleLoyePost.update_post (Session.fresh store) update =
      (⟨⟨store.users,
          store.posts.map
            (fun q =>
              if q.id == update.id then
                { q with title := update.title.getD q.title,
                         text := update.text.getD q.text }
              else q)⟩, [], [], [], [], []⟩,
        ⟨200, "Успешно", none⟩) := by
    unfold MiddleLoyePost.update_post
    rw [DataBasePost.update_post_fresh, hfind]
    rfl
  simp [Router.update_post, hcheck, hdb]

/-- Witness for C10 at a concrete store: updating post 1 changes its title
and text only, and leaves post 2 and the user table alone. -/
theorem C10_update_frame_witness :
    Router.update_post
        (Store.mk [UserRec.mk 1 "alice" "tok" "l" "p"]
          [PostRec.mk 1 "old-title" 1 "old-text" postCreatedAtDefault,
            PostRec.mk 2 "other" 1 "other-text" postCreatedAtDefault])
        "tok" 1 (SchemaPostUpdate.mk 1 (some "new-title") (some "new-text")) =
      (Store.mk [UserRec.mk 1 "alice" "tok" "l" "p"]
        [PostRec.mk 1 "new-title" 1 "new-text" postCreatedAtDefault,
          PostRec.mk 2 "other" 1 "other-text" postCreatedAtDefault],
        .ok ⟨200, "Успешно", none⟩) := by
  have h := C10_update_frame
    (Store.mk [UserRec.mk 1 "alice" "tok" "l" "p"]
      [PostRec.mk 1 "old-title" 1 "old-text" postCreatedAtDefault,
        PostRec.mk 2 "other" 1 "other-text" postCreatedAtDefault])
    "tok" 1 (SchemaPostUpdate.mk 1 (some "new-title") (some "new-text"))
    (PostRec.mk 1 "old-title" 1 "old-text" postCreatedAtDefault)
    (by decide) ⟨UserRec.mk 1 "alice" "tok" "l" "p", by decide, rfl⟩ rfl
  rw [h]
  rfl

/-- C6: creating a post with an existing author and then fetching it by its
new id returns the same title and body text, together with the author's
display name and the formatted stored creation timestamp. -/
theorem C6_create_then_fetch (store : Store) (post : SchemaPost) (author : UserRec)
    (token : String)
    (hauthor : store.users.find? (fun u => u.id == post.author) = some author)
    (htok : ∃ u ∈ store.users, u.token = token) :
    Router.create_post store token post =
      (⟨store.users,
        store.posts ++
          [⟨maxId (store.posts.map PostRec.id) + 1, post.title, post.author, post.text,
            postCreatedAtDefault⟩]⟩,
        .ok ⟨201, "Успешно", none⟩) ∧
    Router.get_post (Router.create_post store token post).1
        (maxId (store.posts.map PostRec.id) + 1) =
      .ok ⟨post.title, post.text, author.name, strftime_ymd_hm postCreatedAtDefault⟩ := by
  have hcheck := check_token_true_of_mem store token htok
  have hmem := List.mem_of_find?_eq_some hauthor
  have hpred := List.find?_some hauthor
  have hany : (store.users.any fun u => u.id == post.author) = true := by
    rw [List.any_eq_true]
    exact ⟨author, hmem, hpred⟩
  have hcp : DataBasePost.create_post (Session.fresh store) post =
      (⟨⟨store.users,
          store.posts ++
            [⟨maxId (store.posts.map PostRec.id) + 1, post.title, post.author, post.text,
              postCreatedAtDefault⟩]⟩, [], [], [], [], []⟩,
        ⟨201, "Успешно", none⟩) := by
    rw [DataBasePost.create_post_fresh, if_pos hany]
  have h1 : Router.create_post store token post =
      (⟨store.users,
        store.posts ++
          [⟨maxId (store.posts.map PostRec.id) + 1, post.title, post.author, post.text,
            postCreatedAtDefault⟩]⟩,
        .ok ⟨201, "Успешно", none⟩) := by
    simp [Router.create_post, MiddleLoyePost.new_post, hcheck, hcp]
  refine ⟨h1, ?_⟩
  rw [h1]
  have hfound :
      (store.posts ++
          [(⟨maxId (store.posts.map PostRec.id) + 1, post.title, post.author, post.text,
            postCreatedAtDefault⟩ : PostRec)]).find?
        (fun q => q.id == maxId (store.posts.map PostRec.id) + 1) =
      some
        ⟨maxId (store.posts.map PostRec.id) + 1, post.title, post.author, post.text,
          postCreatedAtDefault⟩ := by
    rw [List.find?_append, find?_nextPostId_none]
    simp [List.find?_cons]
  simp [Router.get_post, MiddleLoyePost.get_post, DataBasePost.get_post,
    DataBasePost.get_user, Session.fresh, hfound, hauthor]

/-- Witness for C6 at a concrete store: a created post is fetched back with
its title, text, author name and formatted timestamp. -/
theorem C6_create_then_fetch_witness :
    Router.create_post (Store.mk [UserRec.mk 1 "alice" "tok" "l" "p"] []) "tok"
        (SchemaPost.mk "my-title" "my-text" 1) =
      (Store.mk [UserRec.mk 1 "alice" "tok" "l" "p"]
        [PostRec.mk 1 "my-title" 1 "my-text" postCreatedAtDefault],
        .ok ⟨201, "Успешно", none⟩) ∧
    Router.get_post
        (Router.create_post (Store.mk [UserRec.mk 1 "alice" "tok" "l" "p"] []) "tok"
          (SchemaPost.mk "my-title" "my-text" 1)).1 1 =
      .ok ⟨"my-title", "my-text", "alice", "2025-01-01 00:00"⟩ := by
  have h := C6_create_then_fetch (Store.mk [UserRec.mk 1 "alice" "tok" "l" "p"] [])
    (SchemaPost.mk "my-title" "my-text" 1) (UserRec.mk 1 "alice" "tok" "l" "p") "tok"
    (by decide) ⟨UserRec.mk 1 "alice" "tok" "l" "p", by decide, rfl⟩
  exact ⟨h.1.trans (by decide), h.2.trans (by decide)⟩

/-- A list starts with every one of its own prefixes. -/
theorem listStartsWith_append (p x : List Char) : listStartsWith (p ++ x) p = true := by
  induction p with
  | nil => cases x <;> rfl
  | cons a as ih => simp [listStartsWith, ih]

/-- The `token=`-tagged description always passes the `startswith` check. -/
theorem pyStartsWith_token (t : String) :
    pyStartsWith ("token=" ++ t) "token=" = true := by
  have hd : ("token=" ++ t).data = "token=".data ++ t.data := String.data_append _ _
  simp only [pyStartsWith, hd]
  exact listStartsWith_append _ _

/-- Splitting a separator-free tail produces a single piece. -/
theorem splitOnCharAux_no_sep (sep : Char) (l : List Char) :
    ∀ acc, (∀ c ∈ l, (c == sep) = false) →
      splitOnCharAux sep l acc = [acc.reverse ++ l] := by
  induction l with
  | nil =>
    intro acc _
    simp [splitOnCharAux]
  | cons x xs ih =>
    intro acc h
    have hx := h x (List.mem_cons_self x xs)
    simp only [splitOnCharAux, hx, Bool.false_eq_true, if_false, ite_false]
    rw [ih (x :: acc) (fun c hc => h c (List.mem_cons_of_mem _ hc))]
    simp

/-- Python `"token=<t>".split("=")` returns `["token", t]` whenever the token
itself contains no `=` character — true of every `uuid4` string. -/
theorem pySplit_token (t : String) (h : ∀ c ∈ t.data, (c == '=') = false) :
    pySplit '=' ("token=" ++ t) = ["token", t] := by
  unfold pySplit
  have hd : ("token=" ++ t).data = 't' :: 'o' :: 'k' :: 'e' :: 'n' :: '=' :: t.data :=
    String.data_append _ _
  rw [hd]
  have hstep :
      splitOnCharAux '=' ('t' :: 'o' :: 'k' :: 'e' :: 'n' :: '=' :: t.data) [] =
        ['t', 'o', 'k', 'e', 'n'] :: splitOnCharAux '=' t.data [] := by
    simp [splitOnCharAux]
  rw [hstep, splitOnCharAux_no_sep '=' t.data [] h]
  simp only [List.reverse_nil, List.nil_append, List.map_cons, List.map_nil]

/-- Two users sharing login and password — allowed, since uniqueness only
constrains `(name, login)` — built by two `POST /users/` requests. -/
def dupCredsStep1 : Store × HttpResult Resp :=
  Router.create_user ⟨[], []⟩ ⟨"alice", "NoToken", "shared-login", "shared-pw"⟩ "uuid-alice"

def dupCredsStep2 : Store × HttpResult Resp :=
  Router.create_user dupCredsStep1.1 ⟨"bob", "NoToken", "shared-login", "shared-pw"⟩ "uuid-bob"

/-- C3 counterexample: both creations succeed, yet authenticating with
exactly bob's (login, password) returns ALICE's token — `get_verification`
takes the first matching row — so the user "bob", created with these
credentials, does not get back the token issued to him. -/
theorem C3_counterexample :
    dupCredsStep1.2 = HttpResult.ok ⟨201, "Успешно", some "Пользователь успешно создан"⟩ ∧
    dupCredsStep2.2 = HttpResult.ok ⟨201, "Успешно", some "Пользователь успешно создан"⟩ ∧
    Router.authenticate_user dupCredsStep2.1 ⟨"shared-login", "shared-pw"⟩ =
      .ok "uuid-alice" ∧
    "uuid-alice" ≠ "uuid-bob" := by
  refine ⟨by decide, by decide, by decide, by decide⟩

/-- C3 amended: authentication with (L, P) succeeds and returns the token of
the FIRST stored user whose login and password equal (L, P) — hence the
user's own token whenever they are the only holder of those credentials —
provided the stored token contains no `=` character (true of issued uuid4
tokens); a (login, password) pair stored for no user fails with a 401
authentication error and returns no token. -/
theorem C3_first_match_auth (store : Store) (credentials : SchemaVerification) :
    (∀ u : UserRec,
      store.users.find?
          (fun v => v.login == credentials.login && v.password == credentials.password) =
        some u →
      (∀ c ∈ u.token.data, (c == '=') = false) →
      Router.authenticate_user store credentials = .ok u.token) ∧
    (store.users.find?
        (fun v => v.login == credentials.login && v.password == credentials.password) =
      none →
      Router.authenticate_user store credentials =
        .error 401 "Пользователь с указанными данными не найден") := by
  constructor
  · intro u hfind hnoeq
    have hver : DataBaseUser.get_verification (Session.fresh store) credentials =
        ⟨200, "Успешно", some ("token=" ++ u.token)⟩ := by
      unfold DataBaseUser.get_verification
      dsimp only [Session.fresh]
      rw [hfind]
      rfl
    unfold Router.authenticate_user MiddleLoyeUser.verification
    rw [hver]
    simp [pyStartsWith_token, pySplit_token u.token hnoeq]
  · intro hnone
    have hver : DataBaseUser.get_verification (Session.fresh store) credentials =
        ⟨404, "Ошибка", some "Пользователь с указанными данными не найден"⟩ := by
      unfold DataBaseUser.get_verification
      dsimp only [Session.fresh]
      rw [hnone]
      rfl
    unfold Router.authenticate_user MiddleLoyeUser.verification
    rw [hver]
    rfl

/-- Witness for C3 amended at a concrete store: the sole credential holder
gets their own token back, and unknown credentials are refused with 401. -/
theorem C3_first_match_auth_witness :
    Router.authenticate_user (Store.mk [UserRec.mk 1 "alice" "tok-123" "l" "p"] [])
        (SchemaVerification.mk "l" "p") = .ok "tok-123" ∧
    Router.authenticate_user (Store.mk [UserRec.mk 1 "alice" "tok-123" "l" "p"] [])
        (SchemaVerification.mk "l" "bad") =
      .error 401 "Пользователь с указанными данными не найден" := by
  have h1 := C3_first_match_auth (Store.mk [UserRec.mk 1 "alice" "tok-123" "l" "p"] [])
    (SchemaVerification.mk "l" "p")
  have h2 := C3_first_match_auth (Store.mk [UserRec.mk 1 "alice" "tok-123" "l" "p"] [])
    (SchemaVerification.mk "l" "bad")
  exact ⟨h1.1 (UserRec.mk 1 "alice" "tok-123" "l" "p") (by decide) (by decide),
    h2.2 (by decide)⟩

/-- Shape of every `get_posts` query result: an author-filtered base list,
permuted (sorted when the `desc` value is recognised), then truncated by the
`limit`. -/
theorem get_posts_shape (db : Session) (fp : FilterParams) :
    ∃ base : List PostRec,
      DataBasePost.get_posts db fp =
        (match fp.limit with
          | some n => base.take n
          | none => base) ∧
      base.Perm
        (match fp.author with
          | some a => db.store.posts.filter (fun p => p.author == a)
          | none => db.store.posts) ∧
      (fp.desc = some "created_at" → base.Pairwise createdAtDesc) ∧
      (fp.desc = some "title" → base.Pairwise titleDesc) := by
  obtain ⟨d, lim, auth⟩ := fp
  unfold DataBasePost.get_posts
  cases d with
  | none =>
    dsimp only
    refine ⟨_, rfl, List.Perm.refl _, ?_, ?_⟩
    · intro h
      simp at h
    · intro h
      simp at h
  | some dv =>
    dsimp only
    by_cases h1 : dv = "created_at"
    · subst h1
      rw [if_pos rfl]
      refine ⟨_, rfl, List.perm_insertionSort _ _, ?_, ?_⟩
      · intro _
        exact List.sorted_insertionSort createdAtDesc _
      · intro h
        simp at h
    · by_cases h2 : dv = "title"
      · subst h2
        rw [if_neg (by decide), if_pos rfl]
        refine ⟨_, rfl, List.perm_insertionSort _ _, ?_, ?_⟩
        · intro h
          simp at h
        · intro _
          exact List.sorted_insertionSort titleDesc _
      · rw [if_neg h1, if_neg h2]
        refine ⟨_, rfl, List.Perm.refl _, ?_, ?_⟩
        · intro h
          simp at h
          exact absurd h h1
        · intro h
          simp at h
          exact absurd h h2

/-- C4 counterexample: the request `GET /posts/?desc=` names the empty sort
field — neither the creation time nor the title — yet is NOT rejected: the
router's `if sort_by:` drops the empty value, so the listing executes with no
`ORDER BY` at all. The returned order is ascending in both the title and the
timestamp, hence descending in neither. -/
theorem C4_counterexample :
    Router.get_posts
        (Store.mk [UserRec.mk 1 "alice" "t" "l" "p"]
          [PostRec.mk 1 "a-title" 1 "x" (DateTime.mk 2025 1 1 0 0 0),
            PostRec.mk 2 "b-title" 1 "y" (DateTime.mk 2025 1 2 0 0 0)])
        "" none none =
      .ok
        [PostListItem.mk "a-title" 1 "2025-01-01 00:00",
          PostListItem.mk "b-title" 2 "2025-01-02 00:00"] ∧
    strLe "b-title" "a-title" = false ∧
    DateTime.le (DateTime.mk 2025 1 2 0 0 0) (DateTime.mk 2025 1 1 0 0 0) = false := by
  refine ⟨by decide, by decide, by decide⟩

/-- C4 amended: a listing request naming a NON-EMPTY sort field other than
`created_at` or `title` is rejected with a 400 invalid-filter error; a
request naming `created_at`, `title`, or the empty field is executed and
returns the formatted query result; and the query result consists of posts
matching the author filter, truncated to the limit, equal (as a multiset) to
all matching posts when no limit is given, and sorted descending by the
recognised sort field. The empty field — silently dropped by the router —
yields an unsorted listing. -/
theorem C4_filtered_sorted_listing (store : Store) (sort_by : String)
    (limit : Option Nat) (author_id : Option Nat) (fp : FilterParams) :
    (sort_by ≠ "created_at" → sort_by ≠ "title" → sort_by ≠ "" →
      Router.get_posts store sort_by limit author_id =
        .error 400
          "Недопустимое поле для сортировки. Допустимые значения: created_at, title") ∧
    (sort_by = "created_at" ∨ sort_by = "title" ∨ sort_by = "" →
      Router.get_posts store sort_by limit author_id =
        .ok ((DataBasePost.get_posts (Session.fresh store)
            ⟨if sort_by != "" then some sort_by else none, limit, author_id⟩).map
          (fun post => ⟨post.title, post.id, strftime_ymd_hm post.created_at⟩))) ∧
    (∀ a, fp.author = some a →
      ∀ p ∈ DataBasePost.get_posts (Session.fresh store) fp, p.author = a) ∧
    (∀ n, fp.limit = some n →
      (DataBasePost.get_posts (Session.fresh store) fp).length ≤ n) ∧
    (fp.limit = none →
      (DataBasePost.get_posts (Session.fresh store) fp).Perm
        (match fp.author with
          | some a => store.posts.filter (fun p => p.author == a)
          | none => store.posts)) ∧
    (fp.desc = some "created_at" →
      (DataBasePost.get_posts (Session.fresh store) fp).Pairwise createdAtDesc) ∧
    (fp.desc = some "title" →
      (DataBasePost.get_posts (Session.fresh store) fp).Pairwise titleDesc) := by
  obtain ⟨base, heq, hperm, hsort_c, hsort_t⟩ :=
    get_posts_shape (Session.fresh store) fp
  refine ⟨?_, ?_, ?_, ?_, ?_, ?_, ?_⟩
  · intro h1 h2 h3
    have hne : (sort_by != "") = true := by simpa using h3
    unfold Router.get_posts MiddleLoyePost.get_posts
    dsimp only
    rw [if_pos hne]
    dsimp only
    rw [if_neg (by simp [validSortField, h1, h2])]
  · intro hvalid
    unfold Router.get_posts MiddleLoyePost.get_posts
    rcases hvalid with rfl | rfl | rfl
    · rfl
    · rfl
    · rfl
  · intro a ha p hp
    rw [heq] at hp
    have hpbase : p ∈ base := by
      cases hl : fp.limit with
      | none =>
        rw [hl] at hp
        exact hp
      | some n =>
        rw [hl] at hp
        exact List.mem_of_mem_take hp
    have hmem := hperm.mem_iff.mp hpbase
    rw [ha] at hmem
    have := List.mem_filter.mp hmem
    simpa using this.2
  · intro n hn
    rw [heq, hn]
    exact List.length_take_le n base
  · intro hn
    rw [heq, hn]
    exact hperm
  · intro hdesc
    rw [heq]
    cases hl : fp.limit with
    | none => exact hsort_c hdesc
    | some n => exact List.Pairwise.sublist (List.take_sublist n base) (hsort_c hdesc)
  · intro hdesc
    rw [heq]
    cases hl : fp.limit with
    | none => exact hsort_t hdesc
    | some n => exact List.Pairwise.sublist (List.take_sublist n base) (hsort_t hdesc)

/-- Witness for C4 at a concrete store: an unknown sort field is rejected
with 400, a title sort returns the posts in descending title order, the
author filter and limit are honoured, and the sorted result is pairwise
descending. -/
theorem C4_filtered_sorted_listing_witness :
    Router.get_posts
        (Store.mk [UserRec.mk 1 "alice" "t" "l" "p"]
          [PostRec.mk 1 "a-title" 1 "x" (DateTime.mk 2025 1 1 0 0 0),
            PostRec.mk 2 "b-title" 2 "y" (DateTime.mk 2025 1 2 0 0 0)])
        "bogus" none none =
      .error 400
        "Недопустимое поле для сортировки. Допустимые значения: created_at, title" ∧
    Router.get_posts
        (Store.mk [UserRec.mk 1 "alice" "t" "l" "p"]
          [PostRec.mk 1 "a-title" 1 "x" (DateTime.mk 2025 1 1 0 0 0),
            PostRec.mk 2 "b-title" 2 "y" (DateTime.mk 2025 1 2 0 0 0)])
        "title" none none =
      .ok
        [PostListItem.mk "b-title" 2 "2025-01-02 00:00",
          PostListItem.mk "a-title" 1 "2025-01-01 00:00"] ∧
    (∀ p ∈ DataBasePost.get_posts
        (Session.fresh
          (Store.mk [UserRec.mk 1 "alice" "t" "l" "p"]
            [PostRec.mk 1 "a-title" 1 "x" (DateTime.mk 2025 1 1 0 0 0),
              PostRec.mk 2 "b-title" 2 "y" (DateTime.mk 2025 1 2 0 0 0)]))
        (FilterParams.mk none none (some 1)), p.author = 1) ∧
    (DataBasePost.get_posts
        (Session.fresh
          (Store.mk [UserRec.mk 1 "alice" "t" "l" "p"]
            [PostRec.mk 1 "a-title" 1 "x" (DateTime.mk 2025 1 1 0 0 0),
              PostRec.mk 2 "b-title" 2 "y" (DateTime.mk 2025 1 2 0 0 0)]))
        (FilterParams.mk none (some 1) none)).length ≤ 1 ∧
    (DataBasePost.get_posts
        (Session.fresh
          (Store.mk [UserRec.mk 1 "alice" "t" "l" "p"]
            [PostRec.mk 1 "a-title" 1 "x" (DateTime.mk 2025 1 1 0 0 0),
              PostRec.mk 2 "b-title" 2 "y" (DateTime.mk 2025 1 2 0 0 0)]))
        (FilterParams.mk (some "title") none none)).Pairwise titleDesc := by
  refine
    ⟨(C4_filtered_sorted_listing
        (Store.mk [UserRec.mk 1 "alice" "t" "l" "p"]
          [PostRec.mk 1 "a-title" 1 "x" (DateTime.mk 2025 1 1 0 0 0),
            PostRec.mk 2 "b-title" 2 "y" (DateTime.mk 2025 1 2 0 0 0)])
        "bogus" none none (FilterParams.mk none none none)).1
      (by decide) (by decide) (by decide),
    ((C4_filtered_sorted_listing
        (Store.mk [UserRec.mk 1 "alice" "t" "l" "p"]
          [PostRec.mk 1 "a-title" 1 "x" (DateTime.mk 2025 1 1 0 0 0),
            PostRec.mk 2 "b-title" 2 "y" (DateTime.mk 2025 1 2 0 0 0)])
        "title" none none (FilterParams.mk none none none)).2.1
      (Or.inr (Or.inl rfl))).trans (by decide),
    (C4_filtered_sorted_listing
        (Store.mk [UserRec.mk 1 "alice" "t" "l" "p"]
          [PostRec.mk 1 "a-title" 1 "x" (DateTime.mk 2025 1 1 0 0 0),
            PostRec.mk 2 "b-title" 2 "y" (DateTime.mk 2025 1 2 0 0 0)])
        "" none none (FilterParams.mk none none (some 1))).2.2.1 1 rfl,
    (C4_filtered_sorted_listing
        (Store.mk [UserRec.mk 1 "alice" "t" "l" "p"]
          [PostRec.mk 1 "a-title" 1 "x" (DateTime.mk 2025 1 1 0 0 0),
            PostRec.mk 2 "b-title" 2 "y" (DateTime.mk 2025 1 2 0 0 0)])
        "" none none (FilterParams.mk none (some 1) none)).2.2.2.1 1 rfl,
    (C4_filtered_sorted_listing
        (Store.mk [UserRec.mk 1 "alice" "t" "l" "p"]
          [PostRec.mk 1 "a-title" 1 "x" (DateTime.mk 2025 1 1 0 0 0),
            PostRec.mk 2 "b-title" 2 "y" (DateTime.mk 2025 1 2 0 0 0)])
        "" none none (FilterParams.mk (some "title") none none)).2.2.2.2.2.2 rfl⟩

/-- With pairwise-distinct post ids, deleting exactly the rows whose id
belongs to the author's posts removes exactly the author's posts. -/
theorem filter_del_ids (posts : List PostRec) (uid : Nat)
    (hnodup : (posts.map PostRec.id).Nodup) :
    posts.filter
        (fun p =>
          !(((posts.filter (fun q => q.author == uid)).map PostRec.id).contains p.id)) =
      posts.filter (fun p => !(p.author == uid)) := by
  apply List.filter_congr
  intro p hp
  congr 1
  by_cases ha : p.author = uid
  · have hmem : p.id ∈ (posts.filter (fun q => q.author == uid)).map PostRec.id :=
      List.mem_map_of_mem _ (List.mem_filter.mpr ⟨hp, by simp [ha]⟩)
    simp only [ha, beq_self_eq_true]
    rw [List.contains_iff_exists_mem_beq]
    exact ⟨p.id, hmem, by simp⟩
  · have hnot : p.id ∉ (posts.filter (fun q => q.author == uid)).map PostRec.id := by
      intro hmem
      obtain ⟨q, hq, hqid⟩ := List.mem_map.mp hmem
      obtain ⟨hq_mem, hq_auth⟩ := List.mem_filter.mp hq
      have hqp : q = p := List.inj_on_of_nodup_map hnodup hq_mem hp hqid
      rw [hqp] at hq_auth
      exact ha (by simpa using hq_auth)
    have : ((posts.filter (fun q => q.author == uid)).map PostRec.id).contains p.id =
        false := by
      rw [Bool.eq_false_iff]
      intro hc
      obtain ⟨b, hb, hbeq⟩ := List.contains_iff_exists_mem_beq.mp hc
      refine hnot ?_
      rw [beq_iff_eq.mp hbeq]
      exact hb
    rw [this]
    simp [ha]

/-- C1: `DELETE /users/{user_id}` for a stored user deletes that user and
exactly the posts whose author is that user — succeeding also when the user
has no posts — and leaves every other user and every post by another author
in place. -/
theorem C1_delete_user_cascades (store : Store) (user_id : Nat) (u : UserRec)
    (hu : store.users.find? (fun v => v.id == user_id) = some u)
    (hnodup : (store.posts.map PostRec.id).Nodup) :
    Router.delete_user store user_id =
      (⟨store.users.filter (fun v => !(v.id == user_id)),
        store.posts.filter (fun p => !(p.author == user_id))⟩,
        .ok ("User " ++ natToString user_id ++ " and all their posts were deleted")) := by
  have huid : u.id = user_id := by simpa using List.find?_some hu
  by_cases hA : store.posts.filter (fun p => p.author == user_id) = []
  · have hall := List.filter_eq_nil_iff.mp hA
    have hposts_id : store.posts.filter (fun p => !(p.author == user_id)) = store.posts := by
      rw [List.filter_eq_self]
      intro p hp
      simpa using hall p hp
    have hdpu : MiddleLoyePost.delete_post_user (Session.fresh store) user_id =
        (Session.fresh store, ⟨404, "Ошибка", some "Посты не найдены"⟩) := by
      unfold MiddleLoyePost.delete_post_user
      rw [DataBasePost.delete_posts_user_fresh]
      have hempty : (store.posts.filter (fun p => p.author == user_id)).isEmpty = true := by
        rw [hA]
        rfl
      rw [if_pos hempty]
      rfl
    have hallne : (store.posts.all fun p => p.author != u.id) = true := by
      rw [List.all_eq_true]
      intro p hp
      rw [huid]
      simpa using hall p hp
    have hdu : MiddleLoyeUser.delete_user (Session.fresh store) user_id =
        (⟨⟨store.users.filter (fun v => !(v.id == user_id)), store.posts⟩,
          [], [], [], [], []⟩,
          ⟨200, "Успешно",
            some ("Пользователь с ID " ++ natToString user_id ++ " успешно удален")⟩) := by
      unfold MiddleLoyeUser.delete_user
      rw [DataBaseUser.delete_user_fresh, hu]
      dsimp only
      rw [if_pos hallne, huid]
    simp [Router.delete_user, hdpu, hdu]
    exact hposts_id.symm
  · have hS1 : DataBasePost.delete_posts_user (Session.fresh store) user_id =
        (⟨⟨store.users, store.posts.filter (fun p => !(p.author == user_id))⟩,
          [], [], [], [], []⟩,
          ⟨200, "Успешно", none⟩) := by
      rw [DataBasePost.delete_posts_user_fresh]
      rw [if_neg (by simpa [List.isEmpty_iff] using hA)]
      rw [filter_del_ids store.posts user_id hnodup]
    have hdpu : MiddleLoyePost.delete_post_user (Session.fresh store) user_id =
        (⟨⟨store.users, store.posts.filter (fun p => !(p.author == user_id))⟩,
          [], [], [], [], []⟩,
          ⟨200, "Успешно",
            some ("Все посты пользователя " ++ natToString user_id ++ " удалены")⟩) := by
      unfold MiddleLoyePost.delete_post_user
      rw [hS1]
      rfl
    have hallne :
        ((store.posts.filter (fun p => !(p.author == user_id))).all
          fun p => p.author != u.id) = true := by
      rw [List.all_eq_true]
      intro p hp
      rw [huid]
      simpa using (List.mem_filter.mp hp).2
    have hdu : MiddleLoyeUser.delete_user
          (⟨⟨store.users, store.posts.filter (fun p => !(p.author == user_id))⟩,
            [], [], [], [], []⟩ : Session)
          user_id =
        (⟨⟨store.users.filter (fun v => !(v.id == user_id)),
            store.posts.filter (fun p => !(p.author == user_id))⟩, [], [], [], [], []⟩,
          ⟨200, "Успешно",
            some ("Пользователь с ID " ++ natToString user_id ++ " успешно удален")⟩) := by
      unfold MiddleLoyeUser.delete_user
      rw [show (⟨⟨store.users, store.posts.filter (fun p => !(p.author == user_id))⟩,
            [], [], [], [], []⟩ : Session) =
          Session.fresh
            ⟨store.users, store.posts.filter (fun p => !(p.author == user_id))⟩ from rfl]
      rw [DataBaseUser.delete_user_fresh]
      dsimp only
      rw [hu]
      dsimp only
      rw [if_pos hallne, huid]
    simp [Router.delete_user, hdpu, hdu]

/-- Witness for C1 at a concrete store: deleting user 1 removes the user and
both of their posts, and leaves user 2 and user 2's post untouched. -/
theorem C1_delete_user_cascades_witness :
    Router.delete_user
        (Store.mk
          [UserRec.mk 1 "alice" "ta" "la" "pa", UserRec.mk 2 "bob" "tb" "lb" "pb"]
          [PostRec.mk 1 "x" 1 "tx" postCreatedAtDefault,
            PostRec.mk 2 "y" 2 "ty" postCreatedAtDefault,
            PostRec.mk 3 "z" 1 "tz" postCreatedAtDefault]) 1 =
      (Store.mk [UserRec.mk 2 "bob" "tb" "lb" "pb"]
        [PostRec.mk 2 "y" 2 "ty" postCreatedAtDefault],
        .ok "User 1 and all their posts were deleted") := by
  have h := C1_delete_user_cascades
    (Store.mk
      [UserRec.mk 1 "alice" "ta" "la" "pa", UserRec.mk 2 "bob" "tb" "lb" "pb"]
      [PostRec.mk 1 "x" 1 "tx" postCreatedAtDefault,
        PostRec.mk 2 "y" 2 "ty" postCreatedAtDefault,
        PostRec.mk 3 "z" 1 "tz" postCreatedAtDefault]) 1
    (UserRec.mk 1 "alice" "ta" "la" "pa") (by decide) (by decide)
  exact h.trans (by decide)
